import Mathlib

/-!
Shallow embedding of the trace enrichment engine (package `core` of the
repository): the `Trace` tree model, the completeness tracker
(`InProgress` / `countUncompleted`), the generic pre-order traversal
(`visit`), and the batched enrichment resolver (`CollectAdditionalInfo`).

Modelling conventions:
* `tongo.AccountID` is abstracted to a natural-number key (`AccountID`).
* Go maps returned by the information source become association lists with
  first-match `List.lookup` (Go map keys are unique, so first-match lookup
  is an exact model).
* Pointer mutation of the tree is modelled by returning a rewritten tree:
  `CollectAdditionalInfo` returns `Except E Trace`; an `error` result means
  the caller's tree is untouched, exactly as in the Go code where the
  function returns before the second walk ever assigns `AdditionalInfo`.
* The `context.Context` parameter carries no information relevant to the
  claims (it is only passed through to the information source) and is
  dropped; a query failure caused by cancellation is just a query failure.
* The mutable closures passed to `visit` in Go become explicit
  state-threading: `visit fn s t` folds `fn` over the nodes in the order
  the Go code invokes the callback.
-/

/-- Account address (models `tongo.AccountID`). -/
abbrev AccountID := Nat

/-- Contract interface tags (models `abi.ContractInterface`). Only the two
constants the code compares against are distinguished; every other
interface value is `other n`. -/
inductive ContractInterface where
  | NftSaleGetgems : ContractInterface
  | NftSale : ContractInterface
  | other : Nat → ContractInterface
deriving DecidableEq, Repr

/-- Models `abi.JettonTransferMsgOp`, the operation name of a decoded
jetton-transfer message body. -/
def JettonTransferMsgOp : String := "JettonTransfer"

/-- Decoded message body; only the `Operation` field is read by this code. -/
structure DecodedMessageBody where
  Operation : String
deriving DecidableEq, Repr

/-- A message; only the two fields this code reads are embedded
(`DecodedBody` and `Destination`, both nilable pointers in Go). -/
structure Message where
  DecodedBody : Option DecodedMessageBody
  Destination : Option AccountID
deriving DecidableEq, Repr

/-- NftSaleContract holds partial results of the get_sale_data method. -/
structure NftSaleContract where
  NftPrice : Int
  Owner : Option AccountID
deriving DecidableEq, Repr

/-- TraceAdditionalInfo holds information about a trace but not directly
extracted from it or a corresponding transaction. -/
structure TraceAdditionalInfo where
  JettonMaster : Option AccountID
  NftSaleContract : Option NftSaleContract
deriving DecidableEq, Repr

/-- One node of a trace tree. The embedded (filtered) `Transaction`
contributes the fields `OutMsgs`, `InMsg` and `Account`; the remaining
fields are `Trace`'s own. `AdditionalInfo` is a nilable pointer in Go,
hence an `Option` here. -/
inductive Trace where
  | mk (OutMsgs : List Message) (InMsg : Option Message) (Account : AccountID)
      (AccountInterfaces : List ContractInterface) (Children : List Trace)
      (AdditionalInfo : Option TraceAdditionalInfo) : Trace
deriving Repr

/-- Field accessor: the filtered outbound messages of the node. -/
def Trace.OutMsgs : Trace → List Message
  | .mk o _ _ _ _ _ => o

/-- Field accessor: the (optional) inbound message of the node. -/
def Trace.InMsg : Trace → Option Message
  | .mk _ i _ _ _ _ => i

/-- Field accessor: the executing account of the node's transaction. -/
def Trace.Account : Trace → AccountID
  | .mk _ _ a _ _ _ => a

/-- Field accessor: the capability tags of the executing account. -/
def Trace.AccountInterfaces : Trace → List ContractInterface
  | .mk _ _ _ ifs _ _ => ifs

/-- Field accessor: the ordered child traces. -/
def Trace.Children : Trace → List Trace
  | .mk _ _ _ _ ch _ => ch

/-- Field accessor: the optional enrichment annotation. -/
def Trace.AdditionalInfo : Trace → Option TraceAdditionalInfo
  | .mk _ _ _ _ _ info => info

mutual

/-- Models `(t *Trace) countUncompleted`: the node's remaining outbound
message count plus the recursive sum over its children. -/
def Trace.countUncompleted : Trace → Nat
  | .mk o _ _ _ children _ => o.length + countUncompletedList children

/-- The `for _, st := range t.Children { c += st.countUncompleted() }` loop. -/
def countUncompletedList : List Trace → Nat
  | [] => 0
  | t :: ts => t.countUncompleted + countUncompletedList ts

end

/-- Models `(t *Trace) InProgress`: `t.countUncompleted() != 0`. -/
def Trace.InProgress (t : Trace) : Bool :=
  t.countUncompleted != 0

mutual

/-- Models `visit(trace, fn)`: apply `fn` to the node, then visit each
child in order. The Go callback mutates captured state; here the state `s`
is threaded explicitly, in the exact invocation order of the Go code. -/
def visit {σ : Type} (fn : σ → Trace → σ) (s : σ) : Trace → σ
  | .mk o i a ifs children info => visitList fn (fn s (.mk o i a ifs children info)) children

/-- The `for _, child := range trace.Children { visit(child, fn) }` loop. -/
def visitList {σ : Type} (fn : σ → Trace → σ) (s : σ) : List Trace → σ
  | [] => s
  | t :: ts => visitList fn (visit fn s t) ts

end

mutual

/-- Specification helper: the pre-order node list of a trace tree (the node
itself, then the pre-order lists of its children in order). -/
def preorder : Trace → List Trace
  | .mk o i a ifs children info => .mk o i a ifs children info :: preorderList children

/-- Pre-order node list of a forest, left to right. -/
def preorderList : List Trace → List Trace
  | [] => []
  | t :: ts => preorder t ++ preorderList ts

end

/-- Models `isDestinationJettonWallet(inMsg *Message)`. -/
def isDestinationJettonWallet : Option Message → Bool
  | none => false
  | some m =>
    match m.DecodedBody with
    | none => false
    | some body => body.Operation == JettonTransferMsgOp && m.Destination.isSome

/-- Models `hasInterface(interfacesList, name)`. -/
def hasInterface (interfacesList : List ContractInterface) (name : ContractInterface) : Bool :=
  interfacesList.any (fun iface => iface == name)

/-- Models the pointer dereference `*trace.InMsg.Destination`; it is only
ever evaluated under an `isDestinationJettonWallet` guard, which ensures
both options are populated, so the fallback value 0 is never produced. -/
def jettonDest (tr : Trace) : AccountID :=
  match tr.InMsg with
  | some m => m.Destination.getD 0
  | none => 0

/-- Models the `InformationSource` interface. Each method takes the list of
candidate addresses and returns either an error or a result map (an
association list standing for the Go map). The error type `E` is abstract
(Go's `error` interface). -/
structure InformationSource (E : Type) where
  JettonMastersForWallets : List AccountID → Except E (List (AccountID × AccountID))
  GetGemsContracts : List AccountID → Except E (List (AccountID × NftSaleContract))
  NftSaleContracts : List AccountID → Except E (List (AccountID × NftSaleContract))

/-- The body of the candidate-collecting `visit` closure of
`CollectAdditionalInfo`, acting on one node: conditionally append to the
three slices `jettonWallets`, `getGemsContracts` and `basicNftSale`
(threaded as a triple of lists, in that order). -/
def collectStep (s : List AccountID × List AccountID × List AccountID) (tr : Trace) :
    List AccountID × List AccountID × List AccountID :=
  let s1 := if isDestinationJettonWallet tr.InMsg then s.1 ++ [jettonDest tr] else s.1
  let s2 := if hasInterface tr.AccountInterfaces .NftSaleGetgems then s.2.1 ++ [tr.Account] else s.2.1
  let s3 := if hasInterface tr.AccountInterfaces .NftSale then s.2.2 ++ [tr.Account] else s.2.2
  (s1, s2, s3)

/-- The candidate-collecting `visit` call of `CollectAdditionalInfo`: one
walk threading the three candidate slices, all starting empty. -/
def collectCandidates (trace : Trace) : List AccountID × List AccountID × List AccountID :=
  visit collectStep ([], [], []) trace

/-- The body of the assigning `visit` closure of `CollectAdditionalInfo`,
acting on one node: start from a freshly constructed empty annotation and
apply the three guarded map-lookup assignments in source order. -/
def annotateInfo (masters : List (AccountID × AccountID))
    (getGems : List (AccountID × NftSaleContract))
    (basicNftSales : List (AccountID × NftSaleContract)) (tr : Trace) : TraceAdditionalInfo :=
  let info : TraceAdditionalInfo := ⟨none, none⟩
  let info := if isDestinationJettonWallet tr.InMsg then
      match masters.lookup (jettonDest tr) with
      | some master => { info with JettonMaster := some master }
      | none => info
    else info
  let info := if hasInterface tr.AccountInterfaces .NftSaleGetgems then
      match getGems.lookup tr.Account with
      | some getgems => { info with NftSaleContract := some getgems }
      | none => info
    else info
  let info := if hasInterface tr.AccountInterfaces .NftSale then
      match basicNftSales.lookup tr.Account with
      | some sale => { info with NftSaleContract := some sale }
      | none => info
    else info
  info

mutual

/-- The second `visit` walk of `CollectAdditionalInfo`: every node's
`AdditionalInfo` is overwritten with a freshly constructed annotation
(`annotateInfo`); all other fields are untouched. In Go this is in-place
mutation; here the rewritten tree is returned. -/
def annotate (masters : List (AccountID × AccountID))
    (getGems : List (AccountID × NftSaleContract))
    (basicNftSales : List (AccountID × NftSaleContract)) : Trace → Trace
  | .mk o i a ifs children info =>
    .mk o i a ifs (annotateList masters getGems basicNftSales children)
      (some (annotateInfo masters getGems basicNftSales (.mk o i a ifs children info)))

/-- Pointwise `annotate` over a forest. -/
def annotateList (masters : List (AccountID × AccountID))
    (getGems : List (AccountID × NftSaleContract))
    (basicNftSales : List (AccountID × NftSaleContract)) : List Trace → List Trace
  | [] => []
  | t :: ts => annotate masters getGems basicNftSales t ::
      annotateList masters getGems basicNftSales ts

end

/-- Models `CollectAdditionalInfo(ctx, infoSource, trace)`: nil source is a
no-op success; otherwise collect candidates in one walk, issue the three
queries in fixed order failing fast, then run the assigning walk. -/
def CollectAdditionalInfo {E : Type} (infoSource : Option (InformationSource E))
    (trace : Trace) : Except E Trace :=
  match infoSource with
  | none => .ok trace
  | some src =>
    let cands := collectCandidates trace
    match src.JettonMastersForWallets cands.1 with
    | .error err => .error err
    | .ok masters =>
      match src.GetGemsContracts cands.2.1 with
      | .error err => .error err
      | .ok getGems =>
        match src.NftSaleContracts cands.2.2 with
        | .error err => .error err
        | .ok basicNftSales => .ok (annotate masters getGems basicNftSales trace)

/-- Specification helper: the jetton-wallet candidate contributed by one
node of the collecting walk (its inbound message's destination, when the
jetton-transfer test passes). -/
def jettonWalletCandidate (tr : Trace) : Option AccountID :=
  if isDestinationJettonWallet tr.InMsg then some (jettonDest tr) else none

/-- Specification helper: the getgems-sale candidate contributed by one
node (its account, when tagged with the getgems sale interface). -/
def getGemsCandidate (tr : Trace) : Option AccountID :=
  if hasInterface tr.AccountInterfaces .NftSaleGetgems then some tr.Account else none

/-- Specification helper: the basic-sale candidate contributed by one node
(its account, when tagged with the generic sale interface). -/
def basicNftSaleCandidate (tr : Trace) : Option AccountID :=
  if hasInterface tr.AccountInterfaces .NftSale then some tr.Account else none

/-- Specification helper: the shape data the completeness tracker may
legitimately depend on — each node's filtered outbound-message count and
the tree structure, nothing else. -/
inductive MsgShape where
  | node : Nat → List MsgShape → MsgShape
deriving Repr

mutual

/-- Specification helper: project a trace tree to its outbound-count shape. -/
def msgShape : Trace → MsgShape
  | .mk o _ _ _ ch _ => .node o.length (msgShapeList ch)

/-- Pointwise `msgShape` over a forest. -/
def msgShapeList : List Trace → List MsgShape
  | [] => []
  | t :: ts => msgShape t :: msgShapeList ts

end

mutual

/-- Specification helper: total outbound-message count of a shape. -/
def shapeCount : MsgShape → Nat
  | .node n ch => n + shapeCountList ch

/-- Sum of `shapeCount` over a forest of shapes. -/
def shapeCountList : List MsgShape → Nat
  | [] => 0
  | s :: ss => shapeCount s + shapeCountList ss

end

/-! ## Shared lemmas about the traversal and the walks -/

mutual

/-- The state-threaded `visit` is the left fold of the callback over the
pre-order node list. -/
theorem visit_eq_foldl {σ : Type} (fn : σ → Trace → σ) :
    ∀ (t : Trace) (s : σ), visit fn s t = (preorder t).foldl fn s
  | .mk o i a ifs ch info, s => by
    simp [visit, preorder, visitList_eq_foldl fn ch]

/-- Forest version of `visit_eq_foldl`. -/
theorem visitList_eq_foldl {σ : Type} (fn : σ → Trace → σ) :
    ∀ (l : List Trace) (s : σ), visitList fn s l = (preorderList l).foldl fn s
  | [], s => by simp [visitList, preorderList]
  | t :: ts, s => by
    simp [visitList, preorderList, visit_eq_foldl fn t, visitList_eq_foldl fn ts]

end

mutual

/-- The recursive uncompleted count is the sum of per-node outbound-message
counts over the pre-order node list. -/
theorem countUncompleted_eq_sum :
    ∀ t : Trace, t.countUncompleted = ((preorder t).map (fun n => n.OutMsgs.length)).sum
  | .mk o i a ifs ch info => by
    simp [Trace.countUncompleted, preorder, Trace.OutMsgs, countUncompletedList_eq_sum ch]

/-- Forest version of `countUncompleted_eq_sum`. -/
theorem countUncompletedList_eq_sum :
    ∀ l : List Trace, countUncompletedList l = ((preorderList l).map (fun n => n.OutMsgs.length)).sum
  | [] => by simp [countUncompletedList, preorderList]
  | t :: ts => by
    simp [countUncompletedList, preorderList, countUncompleted_eq_sum t,
      countUncompletedList_eq_sum ts]

end

/-- Folding the collecting step over any node list appends that list's
candidates, category by category, to the incoming state. -/
theorem foldl_collectStep (l : List Trace) :
    ∀ s : List AccountID × List AccountID × List AccountID,
      l.foldl collectStep s =
        (s.1 ++ l.filterMap jettonWalletCandidate,
         s.2.1 ++ l.filterMap getGemsCandidate,
         s.2.2 ++ l.filterMap basicNftSaleCandidate) := by
  induction l with
  | nil => intro s; simp
  | cons t ts ih =>
    intro s
    simp only [List.foldl_cons, List.filterMap_cons, ih]
    simp only [collectStep, jettonWalletCandidate, getGemsCandidate, basicNftSaleCandidate]
    by_cases h1 : isDestinationJettonWallet t.InMsg <;>
      by_cases h2 : hasInterface t.AccountInterfaces .NftSaleGetgems <;>
      by_cases h3 : hasInterface t.AccountInterfaces .NftSale <;>
      simp [h1, h2, h3]

/-- The three candidate slices built by the collecting walk are exactly the
qualifying addresses of the pre-order node list, category by category. -/
theorem collectCandidates_eq (t : Trace) :
    collectCandidates t =
      ((preorder t).filterMap jettonWalletCandidate,
       (preorder t).filterMap getGemsCandidate,
       (preorder t).filterMap basicNftSaleCandidate) := by
  simp [collectCandidates, visit_eq_foldl, foldl_collectStep]

mutual

/-- After the assigning walk, the annotation of every pre-order node is
exactly `some (annotateInfo ...)` of the corresponding original node. -/
theorem preorder_annotate_map (m : List (AccountID × AccountID))
    (g b : List (AccountID × NftSaleContract)) :
    ∀ t : Trace,
      (preorder (annotate m g b t)).map Trace.AdditionalInfo
        = (preorder t).map (fun n => some (annotateInfo m g b n))
  | .mk o i a ifs ch info => by
    simp only [annotate, preorder, List.map_cons, Trace.AdditionalInfo,
      preorderList_annotate_map m g b ch]

/-- Forest version of `preorder_annotate_map`. -/
theorem preorderList_annotate_map (m : List (AccountID × AccountID))
    (g b : List (AccountID × NftSaleContract)) :
    ∀ l : List Trace,
      (preorderList (annotateList m g b l)).map Trace.AdditionalInfo
        = (preorderList l).map (fun n => some (annotateInfo m g b n))
  | [] => by simp [annotateList, preorderList]
  | t :: ts => by
    simp [annotateList, preorderList, preorder_annotate_map m g b t,
      preorderList_annotate_map m g b ts]

end

/-- The per-node annotation depends only on the inbound message, account
and interface tags of the node, not on its outbound messages, children or
previous annotation. -/
theorem annotateInfo_fields (m : List (AccountID × AccountID))
    (g b : List (AccountID × NftSaleContract)) (o o' : List Message) (i : Option Message)
    (a : AccountID) (ifs : List ContractInterface) (ch ch' : List Trace)
    (info info' : Option TraceAdditionalInfo) :
    annotateInfo m g b (.mk o i a ifs ch info) = annotateInfo m g b (.mk o' i a ifs ch' info') :=
  rfl

mutual

/-- A node-local function that ignores outbound messages, children and the
annotation field reads the same values from the annotated tree's pre-order
list as from the original's. -/
theorem preorder_annotate_filterMap {α : Type} (f : Trace → Option α)
    (hf : ∀ (o o' : List Message) (i : Option Message) (a : AccountID)
      (ifs : List ContractInterface) (ch ch' : List Trace)
      (info info' : Option TraceAdditionalInfo),
      f (Trace.mk o i a ifs ch info) = f (Trace.mk o' i a ifs ch' info'))
    (m : List (AccountID × AccountID)) (g b : List (AccountID × NftSaleContract)) :
    ∀ t : Trace, (preorder (annotate m g b t)).filterMap f = (preorder t).filterMap f
  | .mk o i a ifs ch info => by
    have h1 := hf o o i a ifs (annotateList m g b ch) ch
      (some (annotateInfo m g b (.mk o i a ifs ch info))) info
    simp only [annotate, preorder, List.filterMap_cons, h1,
      preorderList_annotate_filterMap f hf m g b ch]

/-- Forest version of `preorder_annotate_filterMap`. -/
theorem preorderList_annotate_filterMap {α : Type} (f : Trace → Option α)
    (hf : ∀ (o o' : List Message) (i : Option Message) (a : AccountID)
      (ifs : List ContractInterface) (ch ch' : List Trace)
      (info info' : Option TraceAdditionalInfo),
      f (Trace.mk o i a ifs ch info) = f (Trace.mk o' i a ifs ch' info'))
    (m : List (AccountID × AccountID)) (g b : List (AccountID × NftSaleContract)) :
    ∀ l : List Trace,
      (preorderList (annotateList m g b l)).filterMap f = (preorderList l).filterMap f
  | [] => by simp [annotateList, preorderList]
  | t :: ts => by
    simp [annotateList, preorderList, preorder_annotate_filterMap f hf m g b t,
      preorderList_annotate_filterMap f hf m g b ts]

end

/-- The assigning walk does not change any of the three candidate slices:
re-collecting on an annotated tree yields the original candidates. -/
theorem collectCandidates_annotate (m : List (AccountID × AccountID))
    (g b : List (AccountID × NftSaleContract)) (t : Trace) :
    collectCandidates (annotate m g b t) = collectCandidates t := by
  rw [collectCandidates_eq, collectCandidates_eq]
  rw [preorder_annotate_filterMap jettonWalletCandidate (fun _ _ _ _ _ _ _ _ _ => rfl) m g b t]
  rw [preorder_annotate_filterMap getGemsCandidate (fun _ _ _ _ _ _ _ _ _ => rfl) m g b t]
  rw [preorder_annotate_filterMap basicNftSaleCandidate (fun _ _ _ _ _ _ _ _ _ => rfl) m g b t]

mutual

/-- Annotating an already-annotated tree with the same result maps changes
nothing: the second walk rebuilds the identical annotations. -/
theorem annotate_annotate (m : List (AccountID × AccountID))
    (g b : List (AccountID × NftSaleContract)) :
    ∀ t : Trace, annotate m g b (annotate m g b t) = annotate m g b t
  | .mk o i a ifs ch info => by
    simp [annotate, annotateList_annotate m g b ch]
    exact annotateInfo_fields m g b o o i a ifs (annotateList m g b ch) ch
      (some (annotateInfo m g b (Trace.mk o i a ifs ch info))) info

/-- Forest version of `annotate_annotate`. -/
theorem annotateList_annotate (m : List (AccountID × AccountID))
    (g b : List (AccountID × NftSaleContract)) :
    ∀ l : List Trace, annotateList m g b (annotateList m g b l) = annotateList m g b l
  | [] => by simp [annotateList]
  | t :: ts => by
    simp [annotateList, annotate_annotate m g b t, annotateList_annotate m g b ts]

end

/-- When all three queries succeed, the resolver returns the tree rewritten
by the assigning walk with the three returned maps. -/
theorem collectAdditionalInfo_queries_ok {E : Type} (src : InformationSource E) (t : Trace)
    (m : List (AccountID × AccountID)) (g b : List (AccountID × NftSaleContract))
    (hm : src.JettonMastersForWallets (collectCandidates t).1 = .ok m)
    (hg : src.GetGemsContracts (collectCandidates t).2.1 = .ok g)
    (hb : src.NftSaleContracts (collectCandidates t).2.2 = .ok b) :
    CollectAdditionalInfo (some src) t = .ok (annotate m g b t) := by
  simp [CollectAdditionalInfo, hm, hg, hb]

/-- Inversion: a successful run means all three queries succeeded and the
result is the annotated tree for the returned maps. -/
theorem collectAdditionalInfo_ok_inv {E : Type} (src : InformationSource E) (t t' : Trace)
    (h : CollectAdditionalInfo (some src) t = .ok t') :
    ∃ m g b, src.JettonMastersForWallets (collectCandidates t).1 = .ok m ∧
      src.GetGemsContracts (collectCandidates t).2.1 = .ok g ∧
      src.NftSaleContracts (collectCandidates t).2.2 = .ok b ∧
      t' = annotate m g b t := by
  simp only [CollectAdditionalInfo] at h
  cases hm : src.JettonMastersForWallets (collectCandidates t).1 with
  | error e => rw [hm] at h; exact absurd h (by simp)
  | ok m =>
    rw [hm] at h
    cases hg : src.GetGemsContracts (collectCandidates t).2.1 with
    | error e => rw [hg] at h; exact absurd h (by simp)
    | ok g =>
      rw [hg] at h
      cases hb : src.NftSaleContracts (collectCandidates t).2.2 with
      | error e => rw [hb] at h; exact absurd h (by simp)
      | ok b =>
        rw [hb] at h
        simp only [Except.ok.injEq] at h
        exact ⟨m, g, b, rfl, rfl, rfl, h.symm⟩

mutual

/-- The uncompleted count factors through the outbound-count shape of the
tree. -/
theorem countUncompleted_msgShape :
    ∀ t : Trace, t.countUncompleted = shapeCount (msgShape t)
  | .mk o i a ifs ch info => by
    simp [Trace.countUncompleted, msgShape, shapeCount, countUncompletedList_msgShape ch]

/-- Forest version of `countUncompleted_msgShape`. -/
theorem countUncompletedList_msgShape :
    ∀ l : List Trace, countUncompletedList l = shapeCountList (msgShapeList l)
  | [] => by simp [countUncompletedList, msgShapeList, shapeCountList]
  | t :: ts => by
    simp [countUncompletedList, msgShapeList, shapeCountList,
      countUncompleted_msgShape t, countUncompletedList_msgShape ts]

end

/-! ## Concrete sample data for witnesses -/

/-- Sample message: a decoded jetton transfer into wallet 42. -/
def sampleJettonMsg : Message := ⟨some ⟨"JettonTransfer"⟩, some 42⟩

/-- Sample node: account 5 tagged with both sale interfaces and a
jetton-transfer inbound message. -/
def sampleSaleNode : Trace :=
  .mk [] (some sampleJettonMsg) 5 [.NftSaleGetgems, .NftSale] [] none

/-- Sample node with no qualifying classification (one unmatched outbound
message, no inbound message, no interfaces). -/
def samplePlainNode : Trace := .mk [sampleJettonMsg] none 6 [] [] none

/-- Sample two-child tree. -/
def sampleTree : Trace := .mk [] none 7 [] [sampleSaleNode, samplePlainNode] none

/-- Sample getgems-variant sale resolution. -/
def saleG : NftSaleContract := ⟨10, some 1⟩

/-- Sample basic-sale resolution, different from `saleG`. -/
def saleB : NftSaleContract := ⟨20, some 2⟩

/-- Source whose first (jetton) query fails. -/
def errSrc1 : InformationSource Nat :=
  ⟨fun _ => .error 11, fun _ => .ok [], fun _ => .ok []⟩

/-- Source whose second (getgems) query fails. -/
def errSrc2 : InformationSource Nat :=
  ⟨fun _ => .ok [], fun _ => .error 12, fun _ => .ok []⟩

/-- Source whose third (basic-sale) query fails. -/
def errSrc3 : InformationSource Nat :=
  ⟨fun _ => .ok [], fun _ => .ok [], fun _ => .error 13⟩

/-- Source resolving account 5 in both sale queries, with different data. -/
def bothSrc : InformationSource Nat :=
  ⟨fun _ => .ok [(42, 100)], fun _ => .ok [(5, saleG)], fun _ => .ok [(5, saleB)]⟩

/-- Source answering the jetton query constantly. -/
def agreeSrc1 : InformationSource Nat :=
  ⟨fun _ => .ok [(42, 100)], fun _ => .ok [], fun _ => .ok []⟩

/-- Source answering the jetton query like `agreeSrc1` on the one key list
actually issued for `sampleTree`, but differing everywhere else. -/
def agreeSrc2 : InformationSource Nat :=
  ⟨fun l => if l = [42] then .ok [(42, 100)] else .error 9,
   fun _ => .ok [], fun _ => .ok []⟩

/-- Sample tree with no outbound messages anywhere. -/
def quietTree : Trace := .mk [] none 1 [] [.mk [] none 2 [] [] none] none

/-! ## The claims -/

/-- C1: for every trace tree and every information source in which at least
one of the three batched queries returns an error, `CollectAdditionalInfo`
returns that same error unmodified (the earliest failing query in the fixed
order wins). In this embedding mutation is modelled by the returned tree,
so an `error` result means the caller's tree is left exactly as passed in:
no node's `AdditionalInfo` is touched, not even with an empty value. -/
theorem collectAdditionalInfo_error_aborts {E : Type} (src : InformationSource E)
    (t : Trace) (e : E) :
    (src.JettonMastersForWallets (collectCandidates t).1 = .error e →
      CollectAdditionalInfo (some src) t = .error e) ∧
    (∀ m, src.JettonMastersForWallets (collectCandidates t).1 = .ok m →
      src.GetGemsContracts (collectCandidates t).2.1 = .error e →
      CollectAdditionalInfo (some src) t = .error e) ∧
    (∀ m g, src.JettonMastersForWallets (collectCandidates t).1 = .ok m →
      src.GetGemsContracts (collectCandidates t).2.1 = .ok g →
      src.NftSaleContracts (collectCandidates t).2.2 = .error e →
      CollectAdditionalInfo (some src) t = .error e) := by
  refine ⟨fun h1 => ?_, fun m h1 h2 => ?_, fun m g h1 h2 h3 => ?_⟩ <;>
    simp [CollectAdditionalInfo, *]

/-- Witness for C1 at concrete inputs: each of the three query positions
failing propagates its own error. -/
theorem collectAdditionalInfo_error_aborts_witness :
    CollectAdditionalInfo (some errSrc1) sampleTree = .error 11 ∧
    CollectAdditionalInfo (some errSrc2) sampleTree = .error 12 ∧
    CollectAdditionalInfo (some errSrc3) sampleTree = .error 13 :=
  ⟨(collectAdditionalInfo_error_aborts errSrc1 sampleTree 11).1 rfl,
   (collectAdditionalInfo_error_aborts errSrc2 sampleTree 12).2.1 [] rfl rfl,
   (collectAdditionalInfo_error_aborts errSrc3 sampleTree 13).2.2 [] [] rfl rfl rfl⟩

/-- C2: `InProgress` is true iff the sum over every node in the subtree of
the remaining outbound-message counts is nonzero; the internal count equals
exactly that sum; in particular a tree in which every node's filtered
outbound list is empty is not in progress. -/
theorem inProgress_iff_sum_nonzero (t : Trace) :
    (t.InProgress = true ↔ ((preorder t).map (fun n => n.OutMsgs.length)).sum ≠ 0) ∧
    t.countUncompleted = ((preorder t).map (fun n => n.OutMsgs.length)).sum ∧
    ((∀ n ∈ preorder t, n.OutMsgs = []) → t.InProgress = false) := by
  have hsum := countUncompleted_eq_sum t
  refine ⟨?_, hsum, ?_⟩
  · simp [Trace.InProgress, hsum, bne_iff_ne]
  · intro h
    have hz : ((preorder t).map (fun n => n.OutMsgs.length)).sum = 0 := by
      apply List.sum_eq_zero
      intro x hx
      simp only [List.mem_map] at hx
      obtain ⟨n, hn, rfl⟩ := hx
      simp [h n hn]
    simp [Trace.InProgress, hsum, hz]

/-- Witness for C2 at concrete inputs: a message-free tree is complete and
the sample tree's count equals its pre-order sum of one. -/
theorem inProgress_iff_sum_nonzero_witness :
    Trace.InProgress quietTree = false ∧ Trace.countUncompleted sampleTree = 1 :=
  ⟨(inProgress_iff_sum_nonzero quietTree).2.2 (by decide),
   by rw [(inProgress_iff_sum_nonzero sampleTree).2.1]; decide⟩

/-- C3: a node tagged with both sale-interface capabilities whose account
is resolved by both sale queries ends with the basic-sale resolution, which
overwrites the marketplace-variant one; and on full success the resolver
writes exactly `annotateInfo` at every pre-order node. -/
theorem nftSale_basic_overwrites_getgems :
    (∀ (m : List (AccountID × AccountID)) (g b : List (AccountID × NftSaleContract))
      (tr : Trace) (sg sb : NftSaleContract),
      hasInterface tr.AccountInterfaces .NftSaleGetgems = true →
      hasInterface tr.AccountInterfaces .NftSale = true →
      g.lookup tr.Account = some sg →
      b.lookup tr.Account = some sb →
      (annotateInfo m g b tr).NftSaleContract = some sb) ∧
    (∀ (E : Type) (src : InformationSource E) (t : Trace)
      (m : List (AccountID × AccountID)) (g b : List (AccountID × NftSaleContract)),
      src.JettonMastersForWallets (collectCandidates t).1 = .ok m →
      src.GetGemsContracts (collectCandidates t).2.1 = .ok g →
      src.NftSaleContracts (collectCandidates t).2.2 = .ok b →
      CollectAdditionalInfo (some src) t = .ok (annotate m g b t) ∧
      (preorder (annotate m g b t)).map Trace.AdditionalInfo
        = (preorder t).map (fun n => some (annotateInfo m g b n))) := by
  constructor
  · intro m g b tr sg sb hg hb hlg hlb
    simp [annotateInfo, hg, hb, hlg, hlb]
  · intro E src t m g b hm hg hb
    exact ⟨collectAdditionalInfo_queries_ok src t m g b hm hg hb,
      preorder_annotate_map m g b t⟩

/-- Witness for C3 at concrete inputs: account 5 carries both interfaces,
both maps resolve it, and the basic-sale value wins. -/
theorem nftSale_basic_overwrites_getgems_witness :
    (annotateInfo [(42, 100)] [(5, saleG)] [(5, saleB)] sampleSaleNode).NftSaleContract
      = some saleB ∧
    CollectAdditionalInfo (some bothSrc) sampleSaleNode
      = .ok (annotate [(42, 100)] [(5, saleG)] [(5, saleB)] sampleSaleNode) :=
  ⟨nftSale_basic_overwrites_getgems.1 [(42, 100)] [(5, saleG)] [(5, saleB)]
      sampleSaleNode saleG saleB (by decide) (by decide) (by decide) (by decide),
   (nftSale_basic_overwrites_getgems.2 Nat bothSrc sampleSaleNode
      [(42, 100)] [(5, saleG)] [(5, saleB)] rfl rfl rfl).1⟩

/-- C4: a nil information source makes `CollectAdditionalInfo` a
success-with-no-op: no error, and the returned tree is the input itself,
every node's `AdditionalInfo` untouched. -/
theorem collectAdditionalInfo_nil_source (E : Type) (t : Trace) :
    CollectAdditionalInfo (none : Option (InformationSource E)) t = .ok t := rfl

/-- C5: on a tree of any size the resolver consults the source exactly
through the three batched applications, in the fixed order jetton, getgems,
basic-sale — two sources agreeing on just those three applications are
indistinguishable — and each query's key list is exactly the qualifying
addresses of one full pre-order walk. -/
theorem collectAdditionalInfo_three_batched_queries :
    (∀ (E : Type) (src src' : InformationSource E) (t : Trace),
      src.JettonMastersForWallets (collectCandidates t).1
        = src'.JettonMastersForWallets (collectCandidates t).1 →
      src.GetGemsContracts (collectCandidates t).2.1
        = src'.GetGemsContracts (collectCandidates t).2.1 →
      src.NftSaleContracts (collectCandidates t).2.2
        = src'.NftSaleContracts (collectCandidates t).2.2 →
      CollectAdditionalInfo (some src) t = CollectAdditionalInfo (some src') t) ∧
    (∀ t : Trace, collectCandidates t =
      ((preorder t).filterMap jettonWalletCandidate,
       (preorder t).filterMap getGemsCandidate,
       (preorder t).filterMap basicNftSaleCandidate)) := by
  constructor
  · intro E src src' t h1 h2 h3
    simp only [CollectAdditionalInfo, h1, h2, h3]
  · exact collectCandidates_eq

/-- Witness for C5 at concrete inputs: two sources that agree only on the
three issued key lists produce identical results on the sample tree. -/
theorem collectAdditionalInfo_three_batched_queries_witness :
    CollectAdditionalInfo (some agreeSrc1) sampleTree
      = CollectAdditionalInfo (some agreeSrc2) sampleTree ∧
    collectCandidates sampleTree = ([42], [5], [5]) :=
  ⟨collectAdditionalInfo_three_batched_queries.1 Nat agreeSrc1 agreeSrc2 sampleTree
      rfl rfl rfl,
   by decide⟩

/-- Source resolving only the jetton query, used by the C6 witness. -/
def jettonOnlySrc : InformationSource Nat :=
  ⟨fun _ => .ok [(42, 100)], fun _ => .ok [], fun _ => .ok []⟩

/-- Single node whose inbound message is a jetton transfer to wallet 42. -/
def jettonNode : Trace := .mk [] (some sampleJettonMsg) 9 [] [] none

/-- C6: when all three queries succeed, the resolver returns the tree in
which every pre-order node carries a freshly constructed (non-nil)
`AdditionalInfo`, replacing any previous value; a node with no qualifying
classification gets both optional fields unset; and a node whose inbound
message is a decoded token transfer to destination `D` with `D` mapped to
`M` by the jetton query gets `JettonMaster = M`. -/
theorem collectAdditionalInfo_success_annotates (E : Type) (src : InformationSource E)
    (t : Trace) (m : List (AccountID × AccountID)) (g b : List (AccountID × NftSaleContract))
    (hm : src.JettonMastersForWallets (collectCandidates t).1 = .ok m)
    (hg : src.GetGemsContracts (collectCandidates t).2.1 = .ok g)
    (hb : src.NftSaleContracts (collectCandidates t).2.2 = .ok b) :
    CollectAdditionalInfo (some src) t = .ok (annotate m g b t) ∧
    (preorder (annotate m g b t)).map Trace.AdditionalInfo
      = (preorder t).map (fun n => some (annotateInfo m g b n)) ∧
    (∀ tr : Trace, isDestinationJettonWallet tr.InMsg = false →
      hasInterface tr.AccountInterfaces .NftSaleGetgems = false →
      hasInterface tr.AccountInterfaces .NftSale = false →
      annotateInfo m g b tr = ⟨none, none⟩) ∧
    (∀ (tr : Trace) (M : AccountID), isDestinationJettonWallet tr.InMsg = true →
      m.lookup (jettonDest tr) = some M →
      (annotateInfo m g b tr).JettonMaster = some M) := by
  refine ⟨collectAdditionalInfo_queries_ok src t m g b hm hg hb,
    preorder_annotate_map m g b t, ?_, ?_⟩
  · intro tr h1 h2 h3
    simp [annotateInfo, h1, h2, h3]
  · intro tr M hdj hlm
    simp only [annotateInfo, hdj, if_true, hlm]
    cases hg' : hasInterface tr.AccountInterfaces .NftSaleGetgems <;>
      cases hb' : hasInterface tr.AccountInterfaces .NftSale <;>
      cases hlg : g.lookup tr.Account <;>
      cases hlb : b.lookup tr.Account <;>
      simp [hg', hb', hlg, hlb]

/-- Witness for C6 at concrete inputs: the one-node jetton tree is
annotated with master 100, and a node with no classification gets the empty
annotation. -/
theorem collectAdditionalInfo_success_annotates_witness :
    CollectAdditionalInfo (some jettonOnlySrc) jettonNode
      = .ok (annotate [(42, 100)] [] [] jettonNode) ∧
    (annotateInfo [(42, 100)] [] [] jettonNode).JettonMaster = some 100 ∧
    annotateInfo [(42, 100)] [] [] samplePlainNode = ⟨none, none⟩ :=
  ⟨(collectAdditionalInfo_success_annotates Nat jettonOnlySrc jettonNode
      [(42, 100)] [] [] rfl rfl rfl).1,
   (collectAdditionalInfo_success_annotates Nat jettonOnlySrc jettonNode
      [(42, 100)] [] [] rfl rfl rfl).2.2.2 jettonNode 100 (by decide) (by decide),
   (collectAdditionalInfo_success_annotates Nat jettonOnlySrc jettonNode
      [(42, 100)] [] [] rfl rfl rfl).2.2.1 samplePlainNode (by decide) (by decide) (by decide)⟩

/-- C7: with an information source that returns the same answers on every
call (automatic here, since a source is a function of the key list), a
second invocation of `CollectAdditionalInfo` on the enriched tree succeeds
and reproduces the identical tree: enrichment is idempotent and
deterministic. -/
theorem collectAdditionalInfo_idempotent {E : Type} (src : InformationSource E)
    (t t' : Trace) (h : CollectAdditionalInfo (some src) t = .ok t') :
    CollectAdditionalInfo (some src) t' = .ok t' := by
  obtain ⟨m, g, b, hm, hg, hb, rfl⟩ := collectAdditionalInfo_ok_inv src t t' h
  have hc := collectCandidates_annotate m g b t
  have h1 : src.JettonMastersForWallets (collectCandidates (annotate m g b t)).1 = .ok m := by
    rw [hc]; exact hm
  have h2 : src.GetGemsContracts (collectCandidates (annotate m g b t)).2.1 = .ok g := by
    rw [hc]; exact hg
  have h3 : src.NftSaleContracts (collectCandidates (annotate m g b t)).2.2 = .ok b := by
    rw [hc]; exact hb
  rw [collectAdditionalInfo_queries_ok src (annotate m g b t) m g b h1 h2 h3,
    annotate_annotate]

/-- Witness for C7 at concrete inputs: re-running enrichment on the already
enriched sample sale node returns it unchanged. -/
theorem collectAdditionalInfo_idempotent_witness :
    CollectAdditionalInfo (some bothSrc)
        (annotate [(42, 100)] [(5, saleG)] [(5, saleB)] sampleSaleNode)
      = .ok (annotate [(42, 100)] [(5, saleG)] [(5, saleB)] sampleSaleNode) :=
  collectAdditionalInfo_idempotent bothSrc sampleSaleNode
    (annotate [(42, 100)] [(5, saleG)] [(5, saleB)] sampleSaleNode) rfl

/-- C8: the traversal primitive applies the visitor to every node exactly
once, in pre-order — it is the left fold of the visitor over the pre-order
node list — and consequently the three candidate lists built by the
collector are the qualifying addresses in pre-order traversal order,
duplicates preserved. -/
theorem visit_preorder_fold :
    (∀ (σ : Type) (fn : σ → Trace → σ) (s : σ) (t : Trace),
      visit fn s t = (preorder t).foldl fn s) ∧
    (∀ t : Trace, collectCandidates t =
      ((preorder t).filterMap jettonWalletCandidate,
       (preorder t).filterMap getGemsCandidate,
       (preorder t).filterMap basicNftSaleCandidate)) :=
  ⟨fun _ fn s t => visit_eq_foldl fn t s, collectCandidates_eq⟩

/-- Source used by the C9 witness: getgems resolves account 5, the
basic-sale map is empty. -/
def missingBasicSrc : InformationSource Nat :=
  ⟨fun _ => .ok [], fun _ => .ok [(5, saleG)], fun _ => .ok []⟩

/-- C9: on a node tagged with both sale-interface capabilities, when the
getgems query resolves the account but the basic-sale map does not contain
it, the marketplace-variant resolution is kept: a missing basic-sale entry
does not clear or overwrite the already-assigned value. -/
theorem nftSale_getgems_kept_when_basic_missing :
    (∀ (m : List (AccountID × AccountID)) (g b : List (AccountID × NftSaleContract))
      (tr : Trace) (sg : NftSaleContract),
      hasInterface tr.AccountInterfaces .NftSaleGetgems = true →
      hasInterface tr.AccountInterfaces .NftSale = true →
      g.lookup tr.Account = some sg →
      b.lookup tr.Account = none →
      (annotateInfo m g b tr).NftSaleContract = some sg) ∧
    (∀ (E : Type) (src : InformationSource E) (t : Trace)
      (m : List (AccountID × AccountID)) (g b : List (AccountID × NftSaleContract)),
      src.JettonMastersForWallets (collectCandidates t).1 = .ok m →
      src.GetGemsContracts (collectCandidates t).2.1 = .ok g →
      src.NftSaleContracts (collectCandidates t).2.2 = .ok b →
      CollectAdditionalInfo (some src) t = .ok (annotate m g b t)) := by
  constructor
  · intro m g b tr sg hg hb hlg hlb
    simp [annotateInfo, hg, hb, hlg, hlb]
  · intro E src t m g b hm hg hb
    exact collectAdditionalInfo_queries_ok src t m g b hm hg hb

/-- Witness for C9 at concrete inputs: account 5 keeps the getgems
resolution when the basic-sale map is empty. -/
theorem nftSale_getgems_kept_when_basic_missing_witness :
    (annotateInfo [] [(5, saleG)] [] sampleSaleNode).NftSaleContract = some saleG ∧
    CollectAdditionalInfo (some missingBasicSrc) sampleSaleNode
      = .ok (annotate [] [(5, saleG)] [] sampleSaleNode) :=
  ⟨nftSale_getgems_kept_when_basic_missing.1 [] [(5, saleG)] [] sampleSaleNode saleG
      (by decide) (by decide) (by decide) (by decide),
   nftSale_getgems_kept_when_basic_missing.2 Nat missingBasicSrc sampleSaleNode
      [] [(5, saleG)] [] rfl rfl rfl⟩

/-- Tree with one outbound message at the root and one message-free child,
rich in content (inbound message, interfaces, annotation). -/
def shapeTreeA : Trace :=
  .mk [sampleJettonMsg] (some sampleJettonMsg) 1 [.NftSale]
    [.mk [] none 2 [] [] none] (some ⟨some 3, none⟩)

/-- Tree with the same outbound-count shape as `shapeTreeA` but entirely
different contents everywhere else. -/
def shapeTreeB : Trace :=
  .mk [⟨none, none⟩] none 9 []
    [.mk [] (some sampleJettonMsg) 8 [.NftSaleGetgems] [] none] none

/-- C10: the completeness signal depends only on the tree structure and the
per-node filtered outbound-message counts: any two trees with the same
outbound-count shape get the same `InProgress` answer and the same count,
whatever their inbound messages, contents, interfaces or annotations. -/
theorem inProgress_depends_only_on_shape (t1 t2 : Trace)
    (h : msgShape t1 = msgShape t2) :
    t1.InProgress = t2.InProgress ∧ t1.countUncompleted = t2.countUncompleted := by
  have hc : t1.countUncompleted = t2.countUncompleted := by
    rw [countUncompleted_msgShape, countUncompleted_msgShape, h]
  exact ⟨by simp [Trace.InProgress, hc], hc⟩

/-- Witness for C10 at concrete inputs: two same-shaped but otherwise
different trees agree on `InProgress`. -/
theorem inProgress_depends_only_on_shape_witness :
    Trace.InProgress shapeTreeA = Trace.InProgress shapeTreeB :=
  (inProgress_depends_only_on_shape shapeTreeA shapeTreeB rfl).1
